import Mathlib

/-!
Verification model of `dominikh/uses` (src/main.go).

The tool scans packages, extracts function and method declarations, keeps
those whose parameter or result types match the `--args` / `--rets` filter
sets, and prints the matches grouped by package path.

External collaborators (the build system, the parser, the gc metadata
loader and the type checker) are modelled as an environment of injected
functions; everything the tool itself does — error message construction,
filtering (`checkTypes`), rendering (`noDot`, `argsToString`), grouping,
sorting (`sortedKeys`) and printing — is translated directly from the
source.  Output is modelled as a list of print-line events, each tagged
with the stream it goes to (`fmt.Println` writes to standard output,
`fmt.Fprintln(os.Stderr, ...)` to standard error).
-/

namespace Uses

/-- One variable of a `types.Tuple`: its name and the rendered type string
(`args.At(i).Name()`, `args.At(i).Type().String()`). -/
structure Param where
  name : String
  type : String
deriving DecidableEq

/-- A `*types.Signature`: optional receiver, parameters, results. -/
structure Signature where
  recv : Option Param
  params : List Param
  results : List Param
deriving DecidableEq

/-- A `function` value (src/main.go:140-143) after the `fnc.Type().(*types.Signature)`
test in `main`: name, owning package path (`fnc.Pkg.Path()`), and the signature
(`none` when the object's type is not a `*types.Signature`, i.e. builtins). -/
structure FuncDecl where
  name : String
  pkgPath : String
  sig : Option Signature
deriving DecidableEq

/-- `noDot` (src/main.go:179-186) scans for the byte sequence that the source
file literally contains inside `strings.Index(s, "Â·")` — bytes C3 82 C2 B7,
i.e. the two characters U+00C2 followed by U+00B7 — and truncates the string
at its first occurrence; if the sequence is absent the string is returned
unchanged.  Since U+00C2 is encoded with a lead byte, the byte-level search
of `strings.Index` coincides with this character-level search. -/
def noDotChars : List Char → List Char
  | [] => []
  | [c] => [c]
  | a :: b :: rest =>
    if a = 'Â' ∧ b = '·' then []
    else a :: noDotChars (b :: rest)

/-- String wrapper for `noDot`. -/
def noDot (s : String) : String := ⟨noDotChars s.data⟩

/-- Rendering of one tuple entry inside `argsToString` (src/main.go:190-199):
`Type` when the (`noDot`-stripped) name is empty, `name Type` otherwise. -/
def renderArg (a : Param) : String :=
  let name := noDot a.name
  if name = "" then a.type else name ++ " " ++ a.type

/-- `argsToString` (src/main.go:188-202): comma-join the rendered entries. -/
def argsToString (args : List Param) : String :=
  String.intercalate ", " (args.map renderArg)

/-- `checkTypes` (src/main.go:204-222).  The double loop sets
`matched[k] = true` exactly when some tuple entry's rendered type string
equals `typs[k]`, and sets `any` as soon as one pair matches; the final
loop returns `all = false` when some `matched[k]` stayed false.  Hence:
the first component is true iff some entry of `matched` is true, the
second iff all entries are (vacuously true for an empty filter list). -/
def checkTypes (args : List Param) (typs : List String) : Bool × Bool :=
  let matched := typs.map (fun toCheck => args.any (fun a => a.type == toCheck))
  (matched.any (fun b => b), matched.all (fun b => b))

/-- The keep decision of the main loop (src/main.go:270-273):
`(!and && (anyArg || anyRet)) || (and && allArg && allRet)`. -/
def keepDecl (andFlag : Bool) (arguments returns : List String) (sig : Signature) : Bool :=
  let argRes := checkTypes sig.params arguments
  let retRes := checkTypes sig.results returns
  (!andFlag && (argRes.1 || retRes.1)) || (andFlag && argRes.2 && retRes.2)

/-- Signature rendering of the main loop (src/main.go:274-284):
optional `(recvName recvType) ` receiver part, then
`name(params) (results)`. -/
def renderSig (fnc : FuncDecl) (sig : Signature) : String :=
  let recvStr :=
    match sig.recv with
    | none => ""
    | some r => "(" ++ noDot r.name ++ " " ++ r.type ++ ") "
  recvStr ++ fnc.name ++ "(" ++ argsToString sig.params ++ ") (" ++ argsToString sig.results ++ ")"

/-- The `signatures` map, written `map[string][]string` in Go, modelled as an
association list in key-creation order (the iteration order of the Go map is
irrelevant to the final output, see the determinism theorem). -/
abbrev SigMap := List (String × List String)

/-- `signatures[path] = append(signatures[path], v)`: append `v` to the entry
of key `k`, creating the entry if absent. -/
def mapAppend (m : SigMap) (k v : String) : SigMap :=
  match m with
  | [] => [(k, [v])]
  | (k0, vs) :: rest => if k0 = k then (k0, vs ++ [v]) :: rest else (k0, vs) :: mapAppend rest k v

/-- Map read `signatures[path]` (absent key reads as the empty slice). -/
def lookupSigs (m : SigMap) (k : String) : List String :=
  match m with
  | [] => []
  | (k0, vs) :: rest => if k0 = k then vs else lookupSigs rest k

/-- One iteration of the filtering loop of `main` (src/main.go:263-286):
skip objects without a callable signature (builtins), otherwise test the
keep condition and record the rendered signature under the package path. -/
def addFunc (andFlag : Bool) (arguments returns : List String)
    (m : SigMap) (fnc : FuncDecl) : SigMap :=
  match fnc.sig with
  | none => m
  | some sig =>
    if keepDecl andFlag arguments returns sig then
      mapAppend m fnc.pkgPath (renderSig fnc sig)
    else m

/-- The whole filtering loop of `main`: fold `addFunc` over the declarations
in encounter order, starting from the empty map. -/
def buildSignatures (andFlag : Bool) (arguments returns : List String)
    (funcs : List FuncDecl) : SigMap :=
  funcs.foldl (addFunc andFlag arguments returns) []

/-- Bytewise "less" on strings as `sort.Strings` compares them, at the level
of characters (UTF-8 encoding preserves the codepoint order bytewise). -/
def strLt : List Char → List Char → Bool
  | [], [] => false
  | [], _ :: _ => true
  | _ :: _, [] => false
  | a :: as, b :: bs => if a < b then true else if b < a then false else strLt as bs

/-- The ascending order used by `sort.Strings`, as a relation. -/
def strLe (a b : String) : Prop := strLt b.data a.data = false

instance : DecidableRel strLe := fun a b => inferInstanceAs (Decidable (strLt b.data a.data = false))

/-- `sort.Strings(keys)`: rearrange into ascending order.  The Go sort is a
quicksort; it is modelled by insertion sort, which produces the same list
whenever, as here, the keys are pairwise distinct (any two sorted
rearrangements of the same list agree, see the determinism theorem). -/
def sortIterKeys (keys : List String) : List String := List.insertionSort strLe keys

/-- `sortedKeys` (src/main.go:224-231): collect the map's keys and sort them. -/
def sortedKeys (m : SigMap) : List String := sortIterKeys (m.map Prod.fst)

/-- One print-line event (`fmt.Println` / `fmt.Fprintln(os.Stderr, ...)`). -/
inductive OutEvent where
  | out : String → OutEvent
  | err : String → OutEvent
deriving DecidableEq

/-- Whether an event goes to standard error. -/
def OutEvent.isErr : OutEvent → Bool
  | .out _ => false
  | .err _ => true

/-- Recursive concatenation of mapped lists (used for flattening loops). -/
def concatMap (f : α → List β) : List α → List β
  | [] => []
  | a :: rest => f a ++ concatMap f rest

/-- A `build.Package` as far as the tool reads it: `Goroot`, `Dir`, `GoFiles`. -/
structure BuildPkg where
  goroot : Bool
  dir : String
  goFiles : List String

/-- A top-level object of a package scope, as far as `getFunctions`
distinguishes them: a `*types.Func` (with the signature of its type, `none`
for builtins), a `*types.TypeName` whose type is a `*types.Named` (with its
method list), a `*types.TypeName` of another type, or any other object.
`pkgPath` is `obj.Pkg().Path()`. -/
inductive ObjKind where
  | funcObj : String → Option Signature → ObjKind
  | namedTypeObj : List (String × Option Signature) → ObjKind
  | plainTypeObj : ObjKind
  | otherObj : ObjKind
deriving DecidableEq

/-- A scope object together with its owning package path. -/
structure Obj where
  pkgPath : String
  kind : ObjKind
deriving DecidableEq

/-- The external collaborators: package discovery (`gotool.ImportPaths`),
`build.Import`, `types.GcImport`, `parser.ParseFile` (per file path), the
type checker (`ctx.context.Check`, returning the scope's objects in
`scope.Names()` order), the gc fallback list the importer accumulated, and
the text `flag.Usage` writes.  A run of the tool is a pure function of this
environment and the flags. -/
structure Env where
  expandPaths : List String → List String
  buildImp : String → Except String BuildPkg
  gcImp : String → Except String (List Obj)
  parseF : String → Except String Unit
  typeCheck : String → Except String (List Obj)
  fallbacks : List String
  usageText : String

/-- `parseFile` (src/main.go:47-54): wrap a parser failure as
`could not parse: <err>`. -/
def parseFile (env : Env) (fileName : String) : Except String Unit :=
  match env.parseF fileName with
  | .error e => .error ("could not parse: " ++ e)
  | .ok _ => .ok ()

/-- The `for _, file := range buildPkg.GoFiles` loop (src/main.go:113-120):
parse each file (path joined as `Dir/file`), stopping at the first failure. -/
def firstParseErr (env : Env) (dir : String) : List String → Option String
  | [] => none
  | f :: rest =>
    match parseFile env (dir ++ "/" ++ f) with
    | .error e => some e
    | .ok _ => firstParseErr env dir rest

/-- The body of the path loop of `getObjects` (src/main.go:91-126), producing
either the package scope's objects or the error recorded for this path.
Note src/main.go:116: `fmt.Errorf("Couldn\x27t parse %s: %s", err)` passes a
single operand to a two-verb format string, so Go substitutes the error for
the first verb and renders the second as `%!s(MISSING)` — the path is
dropped from the message.  Note src/main.go:123: that format string ends in
`\n`, which stays inside the recorded message. -/
def processPath (env : Env) (path : String) : Except String (List Obj) :=
  match env.buildImp path with
  | .error e => .error ("Couldn\x27t import " ++ path ++ ": " ++ e)
  | .ok bp =>
    if bp.goroot then
      match env.gcImp path with
      | .error e => .error ("Couldn\x27t import " ++ path ++ ": " ++ e)
      | .ok objs => .ok objs
    else if bp.goFiles.length = 0 then
      .error ("Couldn\x27t parse " ++ path ++ ": No (non cgo) Go files")
    else
      match firstParseErr env bp.dir bp.goFiles with
      | some e => .error ("Couldn\x27t parse " ++ e ++ ": %!s(MISSING)")
      | none =>
        match env.typeCheck path with
        | .error e => .error ("Couldn\x27t parse " ++ path ++ ": " ++ e ++ "\n")
        | .ok objs => .ok objs

/-- `getObjects` (src/main.go:86-136): process every path, appending the
scope objects of the successful ones and the errors of the failed ones, each
in encounter order. -/
def getObjects (env : Env) : List String → List Obj × List String
  | [] => ([], [])
  | path :: rest =>
    let r := getObjects env rest
    match processPath env path with
    | .error e => (r.1, e :: r.2)
    | .ok objs => (objs ++ r.1, r.2)

/-- The per-object part of `getFunctions` (src/main.go:150-168): a function
object is recorded directly; a type name whose type is named contributes its
methods; everything else contributes nothing.  Each record is tagged with
`obj.Pkg()`. -/
def objFunctions (o : Obj) : List FuncDecl :=
  match o.kind with
  | .funcObj n s => [⟨n, o.pkgPath, s⟩]
  | .namedTypeObj methods => methods.map (fun m => ⟨m.1, o.pkgPath, m.2⟩)
  | .plainTypeObj => []
  | .otherObj => []

/-- `getFunctions` (src/main.go:145-171). -/
def getFunctions (env : Env) (paths : List String) : List FuncDecl × List String :=
  let r := getObjects env paths
  (concatMap objFunctions r.1, r.2)

/-- `listErrors` (src/main.go:173-177): each collected error is printed with
`fmt.Println`, i.e. one print-line call on STANDARD OUTPUT. -/
def listErrors (errs : List String) : List OutEvent :=
  errs.map OutEvent.out

/-- The gc-fallback banner (src/main.go:253-259), written to standard error. -/
def fallbackEvents (env : Env) : List OutEvent :=
  if env.fallbacks.length > 0 then
    OutEvent.err "Relying on gc generated data for..."
      :: env.fallbacks.map OutEvent.err ++ [OutEvent.err ""]
  else []

/-- The report loop (src/main.go:288-295): for each sorted key, the
`path:` header, one tab-indented line per recorded signature, and a blank
line. -/
def reportEvents (m : SigMap) (keys : List String) : List OutEvent :=
  concatMap (fun path =>
    OutEvent.out (path ++ ":") ::
      ((lookupSigs m path).map (fun sig => OutEvent.out ("\t" ++ sig)) ++ [OutEvent.out ""]))
    keys

/-- The command-line flags after `flag.Parse`. -/
structure Flags where
  packages : List String
  arguments : List String
  returns : List String
  andFlag : Bool

/-- The observable outcome of a run: the print events in order, and the
process exit code. -/
structure MainResult where
  events : List OutEvent
  exitCode : Nat
deriving DecidableEq

/-- `main` (src/main.go:233-296).  Missing `--pkgs`, or missing both
`--args` and `--rets`, print a message and the usage text to standard error
and exit with status 1.  Otherwise the collected errors are printed (on
standard output, via `listErrors`), then the fallback banner (standard
error), then the grouped report, and the process exits with status 0. -/
def mainRun (env : Env) (flags : Flags) : MainResult :=
  if flags.packages.length = 0 then
    ⟨[.err "Need to specify at least one package to check.", .err env.usageText], 1⟩
  else if flags.arguments.length + flags.returns.length = 0 then
    ⟨[.err "Need at least one type to search for.", .err env.usageText], 1⟩
  else
    let fr := getFunctions env (env.expandPaths flags.packages)
    let m := buildSignatures flags.andFlag flags.arguments flags.returns fr.1
    ⟨listErrors fr.2 ++ fallbackEvents env ++ reportEvents m (sortedKeys m), 0⟩

/-! ## Concrete values used by witnesses and counterexamples -/

/-- A shared concrete signature: `(x int, y string) (error)`. -/
def sigW : Signature := ⟨none, [⟨"x", "int"⟩, ⟨"y", "string"⟩], [⟨"", "error"⟩]⟩

/-- `sigW` with every name changed and a receiver added; the parameter and
result type lists are unchanged. -/
def sigW2 : Signature := ⟨some ⟨"recv", "*T"⟩, [⟨"a", "int"⟩, ⟨"b", "string"⟩], [⟨"e", "error"⟩]⟩

/-- The signature of the one function of the concrete package `goodpkg`:
`F(x int) (error)`. -/
def sigF : Signature := ⟨none, [⟨"x", "int"⟩], [⟨"", "error"⟩]⟩

/-- A concrete environment: `badpkg` has one source file that fails to
parse, `nofiles` has no (non-cgo) Go files, `goodpkg` parses and
type-checks to a single function `F` with signature `sigF`, and every other
path fails to resolve. -/
def envA : Env where
  expandPaths := fun ps => ps
  buildImp := fun p =>
    if p = "badpkg" then .ok ⟨false, "/src/badpkg", ["a.go"]⟩
    else if p = "nofiles" then .ok ⟨false, "/src/nofiles", []⟩
    else if p = "goodpkg" then .ok ⟨false, "/src/goodpkg", ["g.go"]⟩
    else .error "no such package"
  gcImp := fun _ => .error "no gc data"
  parseF := fun f => if f = "/src/badpkg/a.go" then .error "syntax error" else .ok ()
  typeCheck := fun p =>
    if p = "goodpkg" then .ok [⟨"goodpkg", .funcObj "F" (some sigF)⟩] else .error "tc failed"
  fallbacks := []
  usageText := "usage"

/-- Whether `needle` occurs at the head of `hay`. -/
def leadsWith : List Char → List Char → Bool
  | _, [] => true
  | [], _ :: _ => false
  | a :: as, b :: bs => a = b && leadsWith as bs

/-- Whether `needle` occurs anywhere inside `hay`. -/
def containsChars : List Char → List Char → Bool
  | [], needle => leadsWith [] needle
  | a :: rest, needle => leadsWith (a :: rest) needle || containsChars rest needle

/-- Substring occurrence on strings. -/
def containsStr (hay needle : String) : Bool := containsChars hay.data needle.data

/-- The contribution of one declaration to the report group of `path`: its
rendered signature when it has a callable signature, is kept by the filter,
and belongs to `path`; nothing otherwise.  Used to state the grouping
theorems. -/
def keptRender (andFlag : Bool) (A R : List String) (path : String) (fnc : FuncDecl) :
    Option String :=
  match fnc.sig with
  | none => none
  | some sig =>
    if fnc.pkgPath = path ∧ keepDecl andFlag A R sig = true
    then some (renderSig fnc sig) else none

/-- Two concrete declarations in two packages, listed with `bpkg` first. -/
def funcsW : List FuncDecl :=
  [⟨"G", "bpkg", some sigW⟩, ⟨"F", "apkg", some sigF⟩]

/-! ## Semantics of `checkTypes` and of the keep decision -/

/-- The first result of `checkTypes` (`any`) is true exactly when some tuple
entry's type string occurs in the filter list. -/
theorem checkTypes_fst_iff (args : List Param) (typs : List String) :
    (checkTypes args typs).1 = true ↔ ∃ a ∈ args, a.type ∈ typs := by
  simp [checkTypes, List.any_eq_true, beq_iff_eq]
  constructor
  · rintro ⟨t, ht, a, ha, rfl⟩
    exact ⟨a, ha, ht⟩
  · rintro ⟨a, ha, ht⟩
    exact ⟨a.type, ht, a, ha, rfl⟩

/-- The second result of `checkTypes` (`all`) is true exactly when every
entry of the filter list is covered by some tuple entry's type string. -/
theorem checkTypes_snd_iff (args : List Param) (typs : List String) :
    (checkTypes args typs).2 = true ↔ ∀ t ∈ typs, ∃ a ∈ args, a.type = t := by
  simp [checkTypes, List.all_eq_true, List.any_eq_true, beq_iff_eq]

/-- OR-mode keep decision, characterized. -/
theorem keepDecl_false_iff (A R : List String) (sig : Signature) :
    keepDecl false A R sig = true ↔
      ((∃ p ∈ sig.params, p.type ∈ A) ∨ (∃ r ∈ sig.results, r.type ∈ R)) := by
  simp [keepDecl, Bool.or_eq_true, Bool.and_eq_true, checkTypes_fst_iff]

/-- AND-mode keep decision, characterized. -/
theorem keepDecl_true_iff (A R : List String) (sig : Signature) :
    keepDecl true A R sig = true ↔
      ((∀ t ∈ A, ∃ p ∈ sig.params, p.type = t) ∧ (∀ t ∈ R, ∃ r ∈ sig.results, r.type = t)) := by
  simp [keepDecl, Bool.and_eq_true, checkTypes_snd_iff]

/-- Two booleans agreeing as propositions are equal. -/
theorem bool_eq_of_iff {a b : Bool} (h : a = true ↔ b = true) : a = b := by
  cases a <;> cases b <;> simp_all

/-- Membership of a type string among a parameter list's types, through
`List.map`. -/
theorem exists_type_mem_iff (ps : List Param) (A : List String) :
    (∃ p ∈ ps, p.type ∈ A) ↔ ∃ t ∈ ps.map Param.type, t ∈ A := by
  constructor
  · rintro ⟨p, hp, hA⟩
    exact ⟨p.type, List.mem_map.mpr ⟨p, hp, rfl⟩, hA⟩
  · rintro ⟨t, htm, hA⟩
    obtain ⟨p, hp, rfl⟩ := List.mem_map.mp htm
    exact ⟨p, hp, hA⟩

/-- Coverage of one filter entry, through `List.map`. -/
theorem covered_iff (ps : List Param) (t : String) :
    (∃ p ∈ ps, p.type = t) ↔ t ∈ ps.map Param.type := by
  simp [List.mem_map]

/-- C1: In OR mode (`--and` absent), a declaration with a callable signature
is kept if and only if some parameter's rendered type string equals an entry
of the `--args` list, or some result's rendered type string equals an entry
of the `--rets` list; an empty filter list contributes no match (membership
in it is impossible). -/
theorem or_mode_reports_iff (A R : List String) (sig : Signature) :
    keepDecl false A R sig = true ↔
      ((∃ p ∈ sig.params, p.type ∈ A) ∨ (∃ r ∈ sig.results, r.type ∈ R)) :=
  keepDecl_false_iff A R sig

/-- Witness for C1 at a concrete input: `sigW` has a parameter of type
`int`, so it is kept with `--args=int` and no `--rets` filter. -/
theorem or_mode_reports_iff_witness : keepDecl false ["int"] [] sigW = true :=
  (or_mode_reports_iff ["int"] [] sigW).mpr (Or.inl (by decide))

/-- C2: In AND mode (`--and` given), a declaration with a callable signature
is kept if and only if every entry of the `--args` list equals the rendered
type of some parameter AND every entry of the `--rets` list equals the
rendered type of some result; coverage of an empty filter list is vacuous,
and parameters whose types are in neither list do not prevent a match. -/
theorem and_mode_reports_iff (A R : List String) (sig : Signature) :
    keepDecl true A R sig = true ↔
      ((∀ t ∈ A, ∃ p ∈ sig.params, p.type = t) ∧ (∀ t ∈ R, ∃ r ∈ sig.results, r.type = t)) :=
  keepDecl_true_iff A R sig

/-- Witness for C2 at a concrete input: `sigW` is kept in AND mode with
`--args=int --rets=error` although its `string` parameter is covered by
neither filter list (coverage is filter-set coverage, not parameter
coverage). -/
theorem and_mode_reports_iff_witness : keepDecl true ["int"] ["error"] sigW = true :=
  (and_mode_reports_iff ["int"] ["error"] sigW).mpr (by decide)

/-- C9: OR-mode matching is monotone in the filter sets: enlarging the
`--args` list or the `--rets` list (in particular, adding one entry) never
removes a match. -/
theorem or_mode_monotone (A R A2 R2 : List String) (sig : Signature)
    (hA : ∀ t ∈ A, t ∈ A2) (hR : ∀ t ∈ R, t ∈ R2)
    (h : keepDecl false A R sig = true) :
    keepDecl false A2 R2 sig = true := by
  rw [keepDecl_false_iff] at h ⊢
  rcases h with ⟨p, hp, hpA⟩ | ⟨r, hr, hrR⟩
  · exact Or.inl ⟨p, hp, hA _ hpA⟩
  · exact Or.inr ⟨r, hr, hR _ hrR⟩

/-- Witness for C9 at a concrete input: `sigW` matches with
`--args=int`, and still matches after adding `bool` to the argument list
and `byte` to the return list. -/
theorem or_mode_monotone_witness : keepDecl false ["int", "bool"] ["byte"] sigW = true :=
  or_mode_monotone ["int"] [] ["int", "bool"] ["byte"] sigW
    (by decide) (by decide) (by decide)

/-- C10: the keep decision depends only on the rendered type strings of the
parameters and results and on the membership of the filter lists: names of
parameters, results and the receiver never influence it, and duplicate
filter entries (or any membership-preserving change of a filter list) do
not change which declarations are kept. -/
theorem match_depends_only_on_types (andFlag : Bool) (A A2 R R2 : List String)
    (sig1 sig2 : Signature)
    (hp : sig1.params.map Param.type = sig2.params.map Param.type)
    (hr : sig1.results.map Param.type = sig2.results.map Param.type)
    (hA : ∀ t, t ∈ A ↔ t ∈ A2) (hR : ∀ t, t ∈ R ↔ t ∈ R2) :
    keepDecl andFlag A R sig1 = keepDecl andFlag A2 R2 sig2 := by
  cases andFlag
  · apply bool_eq_of_iff
    rw [keepDecl_false_iff, keepDecl_false_iff]
    rw [exists_type_mem_iff, exists_type_mem_iff, exists_type_mem_iff, exists_type_mem_iff,
      hp, hr]
    exact or_congr
      (exists_congr fun t => and_congr Iff.rfl (hA t))
      (exists_congr fun t => and_congr Iff.rfl (hR t))
  · apply bool_eq_of_iff
    rw [keepDecl_true_iff, keepDecl_true_iff]
    simp only [covered_iff, hp, hr]
    exact and_congr
      (forall_congr' fun t => imp_congr (hA t) Iff.rfl)
      (forall_congr' fun t => imp_congr (hR t) Iff.rfl)

/-- Witness for C10 at a concrete input: renaming every parameter, result
and receiver of `sigW` (giving `sigW2`) and duplicating a filter entry
leaves the AND-mode decision unchanged. -/
theorem match_depends_only_on_types_witness :
    keepDecl true ["int"] ["error"] sigW = keepDecl true ["int", "int"] ["error"] sigW2 :=
  match_depends_only_on_types true ["int"] ["int", "int"] ["error"] ["error"] sigW sigW2
    (by decide) (by decide) (fun t => by simp) (fun t => Iff.rfl)

/-! ## Error aggregation, error messages, exit status -/

/-- Processing a list of paths decomposes: the objects and the errors of a
run are those of any split of the path list, concatenated in encounter
order. -/
theorem getObjects_append (env : Env) (paths1 paths2 : List String) :
    getObjects env (paths1 ++ paths2)
      = ((getObjects env paths1).1 ++ (getObjects env paths2).1,
         (getObjects env paths1).2 ++ (getObjects env paths2).2) := by
  induction paths1 with
  | nil => simp [getObjects]
  | cons p rest ih =>
    cases hpp : processPath env p <;>
      simp [getObjects, hpp, ih]

/-- C3 (counterexample to the claim as stated): on a run with a failing
package (`nofiles`) and a succeeding sibling (`goodpkg`), the package-level
error line is emitted on STANDARD OUTPUT, and no event of the run goes to
standard error at all — the claim's "printed to standard error" is false.
`listErrors` (src/main.go:173-177) uses `fmt.Println`, not
`fmt.Fprintln(os.Stderr, ...)`. -/
theorem errors_not_on_stderr_cex :
    (OutEvent.out "Couldn\x27t parse nofiles: No (non cgo) Go files")
        ∈ (mainRun envA ⟨["nofiles", "goodpkg"], ["int"], [], false⟩).events
    ∧ (mainRun envA ⟨["nofiles", "goodpkg"], ["int"], [], false⟩).events.all
        (fun e => !e.isErr) = true := by decide

/-- C3 (amended): every package-level error (import, parse, or
type-resolution failure) is printed by one print-line call on standard
output, in encounter order, before the report; execution then proceeds,
with exit status 0, to report the declarations extracted from the remaining
packages (the objects and errors of any split of the path list concatenate
in order). -/
theorem errors_printed_then_report (env : Env) (flags : Flags)
    (hp : flags.packages.length ≠ 0)
    (hf : flags.arguments.length + flags.returns.length ≠ 0) :
    ((mainRun env flags).events
        = ((getFunctions env (env.expandPaths flags.packages)).2.map OutEvent.out)
          ++ fallbackEvents env
          ++ reportEvents
               (buildSignatures flags.andFlag flags.arguments flags.returns
                 (getFunctions env (env.expandPaths flags.packages)).1)
               (sortedKeys (buildSignatures flags.andFlag flags.arguments flags.returns
                 (getFunctions env (env.expandPaths flags.packages)).1)))
    ∧ (mainRun env flags).exitCode = 0
    ∧ ∀ paths1 paths2 : List String,
        (getObjects env (paths1 ++ paths2)).2
          = (getObjects env paths1).2 ++ (getObjects env paths2).2
        ∧ (getObjects env (paths1 ++ paths2)).1
          = (getObjects env paths1).1 ++ (getObjects env paths2).1 := by
  refine ⟨?_, ?_, ?_⟩
  · simp [mainRun, hp, hf, listErrors]
  · simp [mainRun, hp, hf]
  · intro paths1 paths2
    rw [getObjects_append]
    exact ⟨rfl, rfl⟩

/-- Witness for the amended C3 at a concrete input. -/
theorem errors_printed_then_report_witness :
    (mainRun envA ⟨["nofiles", "goodpkg"], ["int"], [], false⟩).exitCode = 0 :=
  (errors_printed_then_report envA ⟨["nofiles", "goodpkg"], ["int"], [], false⟩
    (by decide) (by decide)).2.1

/-- C4 (code bug, evaluated at the failing input): a package (`badpkg`)
whose single source file fails to parse produces exactly one error line,
but that line is `Couldn\x27t parse could not parse: syntax error: %!s(MISSING)`
— it carries the parse error where the path should be and does NOT mention
`badpkg`, because src/main.go:116 passes one operand to a two-verb format
string.  The sibling package of the same invocation is still processed and
reported (third conjunct), and the other skip case (`nofiles`, zero Go
files) does mention its path as the claim demands. -/
theorem parse_failure_line_drops_path :
    (getObjects envA ["badpkg", "goodpkg"]).2
      = ["Couldn\x27t parse could not parse: syntax error: %!s(MISSING)"]
    ∧ containsStr "Couldn\x27t parse could not parse: syntax error: %!s(MISSING)" "badpkg" = false
    ∧ (getObjects envA ["badpkg", "goodpkg"]).1 = [⟨"goodpkg", .funcObj "F" (some sigF)⟩]
    ∧ (getObjects envA ["nofiles"]).2 = ["Couldn\x27t parse nofiles: No (non cgo) Go files"]
    ∧ containsStr "Couldn\x27t parse nofiles: No (non cgo) Go files" "nofiles" = true := by
  decide

/-- C5: the run exits with status 1 — after printing a message and the
usage text to standard error — exactly when the `--pkgs` list is empty or
both the `--args` and `--rets` lists are empty; in every other case,
whatever the per-package outcomes, it exits with status 0 (the exit code is
never anything else). -/
theorem exit_status_iff (env : Env) (flags : Flags) :
    ((mainRun env flags).exitCode = 1
        ↔ (flags.packages = [] ∨ (flags.arguments = [] ∧ flags.returns = [])))
    ∧ (flags.packages = [] →
        (mainRun env flags).events
          = [.err "Need to specify at least one package to check.", .err env.usageText])
    ∧ (flags.packages ≠ [] → flags.arguments = [] → flags.returns = [] →
        (mainRun env flags).events
          = [.err "Need at least one type to search for.", .err env.usageText])
    ∧ ((mainRun env flags).exitCode = 0 ∨ (mainRun env flags).exitCode = 1) := by
  by_cases hp : flags.packages.length = 0
  · have hp2 : flags.packages = [] := List.length_eq_zero.mp hp
    simp [mainRun, hp, hp2]
  · have hp2 : flags.packages ≠ [] := fun h => hp (by simp [h])
    by_cases hf : flags.arguments.length + flags.returns.length = 0
    · have ha : flags.arguments = [] := List.length_eq_zero.mp (by omega)
      have hr : flags.returns = [] := List.length_eq_zero.mp (by omega)
      simp [mainRun, hp, hf, hp2, ha, hr]
    · have hnot : ¬(flags.arguments = [] ∧ flags.returns = []) := by
        rintro ⟨ha, hr⟩
        simp [ha, hr] at hf
      refine ⟨by simp [mainRun, hp, hf, hp2, hnot], ?_, ?_, by simp [mainRun, hp, hf]⟩
      · intro h
        exact absurd h hp2
      · intro _ ha hr
        exact absurd ⟨ha, hr⟩ hnot

/-- Witness for C5 at concrete inputs: an empty `--pkgs` list exits 1. -/
theorem exit_status_iff_witness :
    (mainRun envA ⟨[], ["int"], [], false⟩).exitCode = 1 :=
  (exit_status_iff envA ⟨[], ["int"], [], false⟩).1.mpr (Or.inl rfl)

/-- C7 (code bug, evaluated): the rendering shape itself is as the claim
states — the claim's own example, method `Foo` on `*T` with receiver name
`t`, no parameters and one unnamed `error` result, renders as
`(t *T) Foo() (error)` (first conjunct).  But the disambiguation-suffix
stripping fails: a parameter named `p·1`, carrying the gc separator U+00B7,
is rendered UNCHANGED (second and fourth conjunct), because `noDot`
(src/main.go:180) searches for the double-encoded two-character sequence
`Â·` (source bytes C3 82 C2 B7) instead of `·`; only a name containing that
mojibake sequence is stripped (third conjunct). -/
theorem render_shape_and_noDot_eval :
    renderSig ⟨"Foo", "pkg", some ⟨some ⟨"t", "*T"⟩, [], [⟨"", "error"⟩]⟩⟩
        ⟨some ⟨"t", "*T"⟩, [], [⟨"", "error"⟩]⟩ = "(t *T) Foo() (error)"
    ∧ noDot "p·1" = "p·1"
    ∧ noDot "pÂ·1" = "p"
    ∧ argsToString [⟨"p·1", "int"⟩] = "p·1 int" := by
  refine ⟨by decide, by decide, by decide, by decide⟩

/-! ## The order used by `sort.Strings`, and the map structure -/

/-- `strLt` is irreflexive. -/
theorem strLt_irrefl (s : List Char) : strLt s s = false := by
  induction s with
  | nil => rfl
  | cons a as ih => simp [strLt, ih]

/-- `strLt` is asymmetric. -/
theorem strLt_asymm (s t : List Char) (h : strLt s t = true) : strLt t s = false := by
  induction s generalizing t with
  | nil =>
    cases t with
    | nil => exact rfl
    | cons b bs => simp [strLt]
  | cons a as ih =>
    cases t with
    | nil => simp [strLt] at h
    | cons b bs =>
      rcases lt_trichotomy a b with hab | hab | hab
      · simp [strLt, hab, asymm hab]
      · subst hab
        simp only [strLt, lt_irrefl, if_false] at h ⊢
        exact ih bs h
      · simp [strLt, hab, asymm hab] at h

/-- `strLt` is transitive. -/
theorem strLt_trans (s t u : List Char) (h1 : strLt s t = true) (h2 : strLt t u = true) :
    strLt s u = true := by
  induction s generalizing t u with
  | nil =>
    cases u with
    | nil =>
      cases t with
      | nil => exact h1
      | cons b bs => simp [strLt] at h2
    | cons c cs => simp [strLt]
  | cons a as ih =>
    cases t with
    | nil => simp [strLt] at h1
    | cons b bs =>
      cases u with
      | nil => simp [strLt] at h2
      | cons c cs =>
        rcases lt_trichotomy a b with hab | hab | hab
        · rcases lt_trichotomy b c with hbc | hbc | hbc
          · simp [strLt, lt_trans hab hbc]
          · subst hbc
            simp [strLt, hab]
          · simp [strLt, hbc, asymm hbc] at h2
        · subst hab
          rcases lt_trichotomy a c with hac | hac | hac
          · simp [strLt, hac]
          · subst hac
            simp only [strLt, lt_irrefl, if_false] at h1 h2 ⊢
            exact ih bs cs h1 h2
          · simp [strLt, hac, asymm hac] at h2
        · simp [strLt, hab, asymm hab] at h1

/-- `strLt` is trichotomous. -/
theorem strLt_trichotomy (s t : List Char) :
    strLt s t = true ∨ s = t ∨ strLt t s = true := by
  induction s generalizing t with
  | nil =>
    cases t with
    | nil => exact Or.inr (Or.inl rfl)
    | cons b bs => exact Or.inl (by simp [strLt])
  | cons a as ih =>
    cases t with
    | nil => exact Or.inr (Or.inr (by simp [strLt]))
    | cons b bs =>
      rcases lt_trichotomy a b with hab | hab | hab
      · exact Or.inl (by simp [strLt, hab])
      · subst hab
        rcases ih bs with h | h | h
        · exact Or.inl (by simp [strLt, lt_irrefl, h])
        · exact Or.inr (Or.inl (by rw [h]))
        · exact Or.inr (Or.inr (by simp [strLt, lt_irrefl, h]))
      · exact Or.inr (Or.inr (by simp [strLt, hab, asymm hab]))

instance : IsTotal String strLe where
  total a b := by
    unfold strLe
    rcases strLt_trichotomy a.data b.data with h | h | h
    · exact Or.inl (strLt_asymm _ _ h)
    · exact Or.inl (by rw [h]; exact strLt_irrefl _)
    · exact Or.inr (strLt_asymm _ _ h)

instance : IsTrans String strLe where
  trans a b c h1 h2 := by
    unfold strLe at h1 h2 ⊢
    by_contra hca
    have hca2 : strLt c.data a.data = true := by
      cases h : strLt c.data a.data
      · exact absurd h hca
      · rfl
    rcases strLt_trichotomy a.data b.data with h3 | h3 | h3
    · have h4 := strLt_trans _ _ _ hca2 h3
      simp [h4] at h2
    · rw [h3] at hca2
      simp [hca2] at h2
    · simp [h3] at h1

instance : IsAntisymm String strLe where
  antisymm a b h1 h2 := by
    unfold strLe at h1 h2
    rcases strLt_trichotomy a.data b.data with h | h | h
    · simp [h] at h2
    · exact String.ext h
    · simp [h] at h1

/-- Reading a key just written by `mapAppend`: the old contents followed by
the new element; other keys are untouched. -/
theorem lookupSigs_mapAppend (m : SigMap) (k v path : String) :
    lookupSigs (mapAppend m k v) path
      = lookupSigs m path ++ (if k = path then [v] else []) := by
  induction m with
  | nil => by_cases h : k = path <;> simp [mapAppend, lookupSigs, h]
  | cons e rest ih =>
    obtain ⟨k0, vs⟩ := e
    by_cases h1 : k0 = k
    · subst h1
      by_cases h2 : k0 = path
      · subst h2
        simp [mapAppend, lookupSigs]
      · simp [mapAppend, lookupSigs, h2]
    · by_cases h2 : k0 = path
      · subst h2
        have hk : ¬ k = k0 := fun hh => h1 hh.symm
        simp [mapAppend, lookupSigs, h1, hk]
      · simp [mapAppend, lookupSigs, h1, h2, ih]

/-- `mapAppend` leaves the key list unchanged when the key is present and
appends it at the end otherwise. -/
theorem keys_mapAppend (m : SigMap) (k v : String) :
    (mapAppend m k v).map Prod.fst
      = if k ∈ m.map Prod.fst then m.map Prod.fst else m.map Prod.fst ++ [k] := by
  induction m with
  | nil => simp [mapAppend]
  | cons e rest ih =>
    obtain ⟨k0, vs⟩ := e
    by_cases h1 : k0 = k
    · subst h1
      simp [mapAppend]
    · have hne : ¬ k = k0 := fun hh => h1 hh.symm
      by_cases h2 : k ∈ rest.map Prod.fst
      · simp [mapAppend, h1, ih, h2, hne]
      · simp [mapAppend, h1, ih, h2, hne]

/-- `mapAppend` keeps the key list duplicate-free. -/
theorem nodup_keys_mapAppend (m : SigMap) (k v : String)
    (h : (m.map Prod.fst).Nodup) : ((mapAppend m k v).map Prod.fst).Nodup := by
  rw [keys_mapAppend]
  by_cases hk : k ∈ m.map Prod.fst
  · simpa [hk]
  · simp only [hk, if_false]
    simp [List.nodup_append, h, hk]

/-- `mapAppend` never creates an entry with an empty signature list. -/
theorem entries_mapAppend (m : SigMap) (k v : String)
    (h : ∀ e ∈ m, e.2 ≠ []) : ∀ e ∈ mapAppend m k v, e.2 ≠ [] := by
  induction m with
  | nil =>
    intro e he
    simp [mapAppend] at he
    subst he
    simp
  | cons e0 rest ih =>
    obtain ⟨k0, vs⟩ := e0
    intro e he
    by_cases h1 : k0 = k
    · subst h1
      simp [mapAppend] at he
      rcases he with he | he
      · subst he
        simp
      · exact h e (List.mem_cons_of_mem _ he)
    · simp [mapAppend, h1] at he
      rcases he with he | he
      · subst he
        exact h _ (List.mem_cons_self _ _)
      · exact ih (fun x hx => h x (List.mem_cons_of_mem _ hx)) e he

/-- A key that is absent reads as the empty list. -/
theorem lookupSigs_not_mem (m : SigMap) (path : String)
    (h : path ∉ m.map Prod.fst) : lookupSigs m path = [] := by
  induction m with
  | nil => rfl
  | cons e rest ih =>
    obtain ⟨k0, vs⟩ := e
    simp at h
    have : ¬ k0 = path := fun hh => h.1 hh.symm
    simp [lookupSigs, this]
    exact ih (by simpa using h.2)

/-- Over a map without empty entries, a key is present exactly when it
reads as a nonempty list. -/
theorem mem_keys_lookup_ne (m : SigMap) (path : String)
    (hne : ∀ e ∈ m, e.2 ≠ []) :
    path ∈ m.map Prod.fst ↔ lookupSigs m path ≠ [] := by
  constructor
  · intro hmem
    induction m with
    | nil => simp at hmem
    | cons e rest ih =>
      obtain ⟨k0, vs⟩ := e
      by_cases h1 : k0 = path
      · subst h1
        simp [lookupSigs]
        exact hne _ (List.mem_cons_self _ _)
      · simp [lookupSigs, h1]
        apply ih (fun x hx => hne x (List.mem_cons_of_mem _ hx))
        simp at hmem
        rcases hmem with hmem | hmem
        · exact absurd hmem.symm h1
        · simpa using hmem
  · intro hlk
    by_contra hmem
    exact hlk (lookupSigs_not_mem m path hmem)

/-- The filtering loop, characterized: after folding, a package's group
holds its previous contents followed by the rendered signatures of exactly
the kept declarations of that package, in declaration encounter order. -/
theorem lookupSigs_foldl (andFlag : Bool) (A R : List String)
    (funcs : List FuncDecl) (m : SigMap) (path : String) :
    lookupSigs (funcs.foldl (addFunc andFlag A R) m) path
      = lookupSigs m path ++ funcs.filterMap (keptRender andFlag A R path) := by
  induction funcs generalizing m with
  | nil => simp
  | cons f rest ih =>
    rw [List.foldl_cons, ih, List.filterMap_cons]
    cases hs : f.sig with
    | none => simp [addFunc, keptRender, hs]
    | some sig =>
      by_cases hk : keepDecl andFlag A R sig = true
      · by_cases hp : f.pkgPath = path
        · simp [addFunc, keptRender, hs, hk, hp, lookupSigs_mapAppend]
        · simp [addFunc, keptRender, hs, hk, hp, lookupSigs_mapAppend]
      · simp [addFunc, keptRender, hs, hk]

/-- The filtering loop preserves the two map invariants: duplicate-free
keys and no empty entries. -/
theorem buildSignatures_invariant (andFlag : Bool) (A R : List String)
    (funcs : List FuncDecl) (m : SigMap)
    (h1 : (m.map Prod.fst).Nodup) (h2 : ∀ e ∈ m, e.2 ≠ []) :
    ((funcs.foldl (addFunc andFlag A R) m).map Prod.fst).Nodup
    ∧ ∀ e ∈ funcs.foldl (addFunc andFlag A R) m, e.2 ≠ [] := by
  induction funcs generalizing m with
  | nil => exact ⟨h1, h2⟩
  | cons f rest ih =>
    rw [List.foldl_cons]
    apply ih
    · cases hs : f.sig with
      | none => simpa [addFunc, hs]
      | some sig =>
        by_cases hk : keepDecl andFlag A R sig = true
        · simpa [addFunc, hs, hk] using nodup_keys_mapAppend m _ _ h1
        · simpa [addFunc, hs, hk]
    · cases hs : f.sig with
      | none =>
        simp only [addFunc, hs]
        exact h2
      | some sig =>
        by_cases hk : keepDecl andFlag A R sig = true
        · simp only [addFunc, hs]
          rw [if_pos hk]
          exact entries_mapAppend m _ _ h2
        · simp only [addFunc, hs]
          rw [if_neg hk]
          exact h2

/-- C6: in the final report every matching package path appears exactly
once as a group key (the key list is duplicate-free and a key is present
exactly when some kept declaration belongs to it), the group headers are in
ascending lexicographic order of package path whatever order the
declarations arrived in, and the group of each package holds the rendered
signatures of exactly its kept declarations in declaration encounter order,
not sorted. -/
theorem report_grouping (andFlag : Bool) (A R : List String) (funcs : List FuncDecl) :
    ((buildSignatures andFlag A R funcs).map Prod.fst).Nodup
    ∧ List.Sorted strLe (sortedKeys (buildSignatures andFlag A R funcs))
    ∧ (sortedKeys (buildSignatures andFlag A R funcs)).Perm
        ((buildSignatures andFlag A R funcs).map Prod.fst)
    ∧ (∀ path, lookupSigs (buildSignatures andFlag A R funcs) path
        = funcs.filterMap (keptRender andFlag A R path))
    ∧ (∀ path, path ∈ (buildSignatures andFlag A R funcs).map Prod.fst
        ↔ funcs.filterMap (keptRender andFlag A R path) ≠ []) := by
  have hinv : ((buildSignatures andFlag A R funcs).map Prod.fst).Nodup
      ∧ ∀ e ∈ buildSignatures andFlag A R funcs, e.2 ≠ [] :=
    buildSignatures_invariant andFlag A R funcs [] (by simp) (by simp)
  have hlook : ∀ path, lookupSigs (buildSignatures andFlag A R funcs) path
      = funcs.filterMap (keptRender andFlag A R path) := by
    intro path
    have h := lookupSigs_foldl andFlag A R funcs [] path
    simpa [buildSignatures, lookupSigs] using h
  refine ⟨hinv.1, ?_, ?_, hlook, ?_⟩
  · exact List.sorted_insertionSort strLe _
  · exact List.perm_insertionSort strLe _
  · intro path
    rw [mem_keys_lookup_ne _ _ hinv.2, hlook path]

/-- Witness for C6 at a concrete input: the group of `apkg` is exactly the
kept-declaration contributions of `funcsW` to `apkg`. -/
theorem report_grouping_witness :
    lookupSigs (buildSignatures false ["int"] [] funcsW) "apkg"
      = funcsW.filterMap (keptRender false ["int"] [] "apkg") :=
  (report_grouping false ["int"] [] funcsW).2.2.2.1 "apkg"

/-- C8: the program is deterministic.  The run is a pure function of the
flags and of the resolver environment, and the one internal source of
nondeterminism — the iteration order of the Go `signatures` map in
`sortedKeys` — is neutralized by the sort: any two iteration orders of the
keys produce the same sorted key list and hence byte-identical report
output. -/
theorem deterministic_report (andFlag : Bool) (A R : List String) (funcs : List FuncDecl)
    (iter1 iter2 : List String)
    (h1 : iter1.Perm ((buildSignatures andFlag A R funcs).map Prod.fst))
    (h2 : iter2.Perm ((buildSignatures andFlag A R funcs).map Prod.fst)) :
    reportEvents (buildSignatures andFlag A R funcs) (sortIterKeys iter1)
      = reportEvents (buildSignatures andFlag A R funcs) (sortIterKeys iter2) := by
  have e : sortIterKeys iter1 = sortIterKeys iter2 := by
    apply List.eq_of_perm_of_sorted (r := strLe)
    · exact ((List.perm_insertionSort strLe iter1).trans (h1.trans h2.symm)).trans
        (List.perm_insertionSort strLe iter2).symm
    · exact List.sorted_insertionSort strLe iter1
    · exact List.sorted_insertionSort strLe iter2
  rw [e]

/-- Witness for C8 at a concrete input: two opposite iteration orders of
the two keys of `funcsW`'s map give the same report. -/
theorem deterministic_report_witness :
    reportEvents (buildSignatures false ["int"] [] funcsW) (sortIterKeys ["bpkg", "apkg"])
      = reportEvents (buildSignatures false ["int"] [] funcsW) (sortIterKeys ["apkg", "bpkg"]) :=
  deterministic_report false ["int"] [] funcsW ["bpkg", "apkg"] ["apkg", "bpkg"]
    (by decide) (by decide)

end Uses
